import Mathlib

/-!
Shallow embedding of the text-extraction and scoring pipeline of
`twitter_trends_scraper.py` (a merged file holding two near-identical
script variants), together with proofs of the specification claims.

Modelling conventions:
* Python strings are Lean `String`s; most operations are defined
  structurally on the underlying `List Char` so that concrete instances
  evaluate by `decide`.
* Python floats are modelled as `ℚ` (the scores produced by the code are
  ratios of small integers; `ℚ` has no NaN, matching the spec's "no NaN"
  reading, and rounding is modelled exactly).
* Python's Unicode-aware `str.lower`, `str.split`, `str.isdigit` and
  `str.splitlines` are modelled on their ASCII behaviour, which is the
  behaviour exercised by every lexicon word and marker in the source.
* External collaborators (HTTP fetch, the googletrans translator, NLTK's
  VADER analyzer, NLTK's stopword corpus, the stdlib HTML tokenizer) are
  parameters of the corresponding definitions.
-/

/-- Whitespace characters of Python `str.split()` / `str.strip()`
(ASCII fragment: space, tab, newline, carriage return, vertical tab,
form feed). -/
def isPyWS (c : Char) : Bool :=
  c = ' ' || c = '\t' || c = '\n' || c = '\r' || c = '\x0b' || c = '\x0c'

/-- Auxiliary splitter: walks the character list keeping the current token
reversed in `cur`; whitespace runs never produce empty tokens, as with
Python `str.split()` with no separator argument. -/
def pySplitAux : List Char → List Char → List (List Char)
  | [], cur => if cur = [] then [] else [cur.reverse]
  | c :: cs, cur =>
    if isPyWS c then
      if cur = [] then pySplitAux cs [] else cur.reverse :: pySplitAux cs []
    else
      pySplitAux cs (c :: cur)

/-- Python `text.split()`: split on whitespace runs, dropping empty tokens. -/
def pySplit (s : String) : List String :=
  (pySplitAux s.data []).map (fun l => ⟨l⟩)

/-- Python `s.strip(chars)`: remove all leading and trailing characters
belonging to `cs`. -/
def stripChars (cs : List Char) (l : List Char) : List Char :=
  ((l.dropWhile (fun c => decide (c ∈ cs))).reverse.dropWhile
    (fun c => decide (c ∈ cs))).reverse

/-- Python `s.lower()` (ASCII fragment), per character. -/
def lowerStr (s : String) : String := ⟨s.data.map Char.toLower⟩

/-- Characters of the literal `'.,!?:;'` passed to `strip` in the plain
lexicon scorer (line 246 of the source). -/
def SENT_PUNCT : List Char := ".,!?:;".data

/-- Positive lexicon `POSITIVE_WORDS` (source lines 188-191); the Python
set is modelled as a duplicate-free list. -/
def POSITIVE_WORDS : List String :=
  ["good", "great", "happy", "love", "excellent", "positive", "fortunate",
   "correct", "superior", "favorable"]

/-- Negative lexicon `NEGATIVE_WORDS` (source lines 193-196). -/
def NEGATIVE_WORDS : List String :=
  ["bad", "sad", "hate", "terrible", "awful", "negative", "unfortunate",
   "wrong", "inferior", "unfavorable"]

/-- Stripped lower-cased tokens of a message, in order and with
multiplicity: the stream feeding the set comprehension of
`sentiment_score` (source line 246). -/
def sentiRawToks (text : String) : List String :=
  (pySplit text).map (fun w => lowerStr ⟨stripChars SENT_PUNCT w.data⟩)

/-- The set comprehension `{w.strip('.,!?:;').lower() for w in text.split()}`
of `sentiment_score` (source line 246): the distinct stripped lower-cased
tokens. The Python set is modelled as the deduplicated token list. -/
def sentiWords (text : String) : List String :=
  (sentiRawToks text).dedup

/-- Count of distinct tokens of `text` lying in the positive lexicon,
`len(words & POSITIVE_WORDS)` (source line 247). -/
def posCount (text : String) : ℕ :=
  (sentiWords text).countP (fun w => decide (w ∈ POSITIVE_WORDS))

/-- Count of distinct tokens of `text` lying in the negative lexicon,
`len(words & NEGATIVE_WORDS)` (source line 248). -/
def negCount (text : String) : ℕ :=
  (sentiWords text).countP (fun w => decide (w ∈ NEGATIVE_WORDS))

/-- Plain-lexicon `sentiment_score` (source lines 245-251): `0.0` when no
token matches either lexicon, else `(pos - neg) / (pos + neg)`. -/
def sentiment_score (text : String) : ℚ :=
  let pos := posCount text
  let neg := negCount text
  if pos + neg = 0 then 0 else ((pos : ℚ) - neg) / ((pos : ℚ) + neg)

/-- Translation-backed `sentiment_score` (source lines 120-134).  The
googletrans collaborator is modelled as a fallible function `trans`
(covering the whole `try` block: the translate call, the maybe-await and
the `.text` access), and NLTK VADER's compound polarity as `polarity`.
On any translation failure the original text is scored; the polarity
value is passed through unmodified. -/
def sentiment_score_nltk (trans : String → Except String String)
    (polarity : String → ℚ) (text : String) : ℚ :=
  let translated := match trans text with
    | .ok r => r
    | .error _ => text
  polarity translated

/-- Characters of Python `string.punctuation`, used by the summarizer's
token normalization (source lines 140, 148). -/
def PUNCT : List Char :=
  "!\"#$%&\x27()*+,-./:;<=>?@[\\]^_\x60\x7b|\x7d~".data

/-- Token normalization of the summarizer:
`word.strip(string.punctuation).lower()`. -/
def sumTok (w : String) : String := lowerStr ⟨stripChars PUNCT w.data⟩

/-- Summarizer tokens of a word sequence, in order and with multiplicity:
the words whose plain lower-casing is not a stopword, each stripped of
punctuation and lower-cased (the stopword guard tests `word.lower()`,
before punctuation stripping, exactly as in source lines 143 and 150). -/
def tokensOfWords (sw : List String) (ws : List String) : List String :=
  (ws.filter (fun w => !(decide (lowerStr w ∈ sw)))).map sumTok

/-- Tokens one message contributes to the summarizer (source lines 139-144
and 146-151): its split words, filtered and normalized. -/
def sumTokens (sw : List String) (t : String) : List String :=
  tokensOfWords sw (pySplit t)

/-- All summarizer tokens of all messages, in order (the stream the
`Counter` of source lines 139-144 is built from). -/
def allTokens (sw : List String) (tweets : List String) : List String :=
  (tweets.map (sumTokens sw)).flatten

/-- The summarizer's frequency mapping `freq`: occurrences of each token
across all messages; absent tokens count 0, like `Counter`. -/
def freqOf (sw : List String) (tweets : List String) : String → ℕ :=
  fun x => (allTokens sw tweets).count x

/-- Sum of a token list's global frequencies (the generator summed at
source lines 147-151). -/
def msgScoreTokens (freq : String → ℕ) (toks : List String) : ℕ :=
  (toks.map freq).sum

/-- Per-message summarizer score: sum of the message's own tokens' global
frequencies, once per occurrence. -/
def msgScore (sw : List String) (tweets : List String) (t : String) : ℕ :=
  msgScoreTokens (freqOf sw tweets) (sumTokens sw t)

/-- Python string `<=` on code points: lexicographic comparison where a
proper prefix is smaller. -/
def lexLe : List Char → List Char → Bool
  | [], _ => true
  | _ :: _, [] => false
  | a :: as, b :: bs => if a < b then true else if a = b then lexLe as bs else false

/-- Descending order on `(score, text)` pairs produced by
`scored.sort(reverse=True)` (source line 153): higher score first, and on
equal scores the lexicographically larger text first, exactly the reverse
of Python's tuple order. -/
def pairGE (a b : ℕ × String) : Prop :=
  b.1 < a.1 ∨ (a.1 = b.1 ∧ lexLe b.2.data a.2.data = true)

instance : DecidableRel pairGE :=
  fun _ _ => inferInstanceAs (Decidable (_ ∨ _))

/-- Python `sep.join(items)`. -/
def joinSep (sep : String) : List String → String
  | [] => ""
  | [s] => s
  | s :: rest => s ++ sep ++ joinSep sep rest

/-- Summarizer `summarize_tweets` (source lines 137-154): score every
message, sort the `(score, text)` pairs in reverse, keep the first `n`
texts and join them with newlines.  The stopword corpus (external NLTK
data) is the parameter `sw`. -/
def summarize_tweets (sw : List String) (tweets : List String) (n : ℕ) : String :=
  let scored := tweets.map (fun t => (msgScore sw tweets t, t))
  joinSep "\n" (((List.insertionSort pairGE scored).take n).map Prod.snd)

/-- Python `s.strip()` with no argument: remove leading and trailing
whitespace. -/
def pyStrip (s : String) : String :=
  ⟨((s.data.dropWhile isPyWS).reverse.dropWhile isPyWS).reverse⟩

/-- Python `s.isdigit()` (ASCII fragment): nonempty and all digits. -/
def pyIsDigit (s : String) : Bool :=
  !s.data.isEmpty && s.data.all Char.isDigit

/-- Boolean prefix test on character lists. -/
def isPrefixCharsB : List Char → List Char → Bool
  | [], _ => true
  | _ :: _, [] => false
  | a :: as, b :: bs => decide (a = b) && isPrefixCharsB as bs

/-- Python `pre in s` restricted to a prefix position: `s.startswith(pre)`. -/
def startsWithStr (pre s : String) : Bool := isPrefixCharsB pre.data s.data

/-- Boolean contiguous-substring test on character lists (the semantics of
Python's `in` on strings). -/
def isSubstrChars (n : List Char) : List Char → Bool
  | [] => isPrefixCharsB n []
  | h :: hs => isPrefixCharsB n (h :: hs) || isSubstrChars n hs

/-- Timestamp anchor of the first extraction variant: the regex
`UTC"\)$` of source line 101 matches exactly the lines ending in the five
characters `UTC")`. -/
def isAnchor (line : String) : Bool :=
  isPrefixCharsB "UTC\")".data.reverse line.data.reverse

/-- Predicate of the inner skip loop (source line 109): the line is blank
once stripped, or its stripped form is purely numeric. -/
def isBlankOrNum (s : String) : Bool :=
  (pyStrip s).data.isEmpty || pyIsDigit (pyStrip s)

/-- Loop body of the anchor-based `fetch_tweets_from_nitter` (source lines
103-116), with the remaining lines as an explicit list.  `fuel` bounds the
number of outer-loop iterations; every iteration consumes at least one
line, so `lines.length` iterations always suffice.  `cnt` is
`len(tweets)`, checked against the cap of 30 at the head of each
iteration.  On an anchor line the following blank-or-numeric lines are
skipped; if a line remains, its stripped text is appended when it is
nonempty and starts with neither `![` nor `[]`, and scanning resumes after
it (`i = j; i += 1`); if the skip ran off the end, scanning simply
continues with the next line (`i += 1` with `i` unchanged by `j`). -/
def anchorGo : ℕ → List String → ℕ → List String
  | 0, _, _ => []
  | _ + 1, [], _ => []
  | fuel + 1, line :: rest, cnt =>
    if 30 ≤ cnt then []
    else if isAnchor line then
      match rest.dropWhile isBlankOrNum with
      | [] => anchorGo fuel rest cnt
      | next :: rest2 =>
        let text_line := pyStrip next
        if text_line ≠ "" ∧ startsWithStr "![" text_line = false ∧
            startsWithStr "[]" text_line = false then
          text_line :: anchorGo fuel rest2 (cnt + 1)
        else
          anchorGo fuel rest2 cnt
    else anchorGo fuel rest cnt

/-- Python `s.splitlines()` (modelled for the terminators `\n`, `\r` and
`\r\n`): no trailing empty line, and empty input yields no lines. -/
def splitLinesAux : List Char → List Char → List String
  | [], cur => if cur = [] then [] else [⟨cur.reverse⟩]
  | '\r' :: '\n' :: cs, cur => (⟨cur.reverse⟩ : String) :: splitLinesAux cs []
  | '\r' :: cs, cur => (⟨cur.reverse⟩ : String) :: splitLinesAux cs []
  | '\n' :: cs, cur => (⟨cur.reverse⟩ : String) :: splitLinesAux cs []
  | c :: cs, cur => splitLinesAux cs (c :: cur)

/-- Python `body.splitlines()`. -/
def splitLines (body : String) : List String := splitLinesAux body.data []

/-- Anchor-based `fetch_tweets_from_nitter` (first variant, source lines
86-118), applied to the body text the proxy returned (the HTTP fetch is
the external collaborator; on fetch failure the source returns `[]`
before reaching this logic). -/
def fetch_tweets_from_nitter (body : String) : List String :=
  let lines := splitLines body
  anchorGo lines.length lines 0

/-- Event stream delivered by the stdlib `html.parser.HTMLParser`
tokenizer (an external collaborator) to the handlers of `TweetParser`
(second variant, source lines 220-239): start tags with their attribute
list, end tags, and character data. -/
inductive HtmlEvent where
  | tagOpen (tag : String) (attrs : List (String × String))
  | tagClose (tag : String)
  | text (txt : String)
deriving DecidableEq

/-- Python `dict(attrs).get('class', '')`: the value of the last `class`
attribute, defaulting to the empty string (source line 228). -/
def attrClass (attrs : List (String × String)) : String :=
  ((attrs.reverse).lookup "class").getD ""

/-- One handler dispatch of `TweetParser` (source lines 226-239) on the
state `(capture, tweets)`: a `<p class="tweet-content media-body">` start
tag switches capture on, a `</p>` while capturing switches it off, and
character data seen while capturing is stripped and appended when
nonempty. -/
def tweetStep (st : Bool × List String) (e : HtmlEvent) : Bool × List String :=
  match e with
  | .tagOpen tag attrs =>
    if tag = "p" ∧ attrClass attrs = "tweet-content media-body" then
      (true, st.2)
    else st
  | .tagClose tag =>
    if tag = "p" ∧ st.1 = true then (false, st.2) else st
  | .text d =>
    if st.1 = true then
      let s := pyStrip d
      if s ≠ "" then (st.1, st.2 ++ [s]) else st
    else st

/-- Second-variant `fetch_tweets_from_nitter` (source lines 211-243):
feed the event stream to `TweetParser` starting from
`capture = False, tweets = []` and return `parser.tweets[:10]`. -/
def tweetTagExtract (events : List HtmlEvent) : List String :=
  ((events.foldl tweetStep (false, [])).2).take 10

/-- Modelled from the spec: the metadata-prefix exclusion of the
filter-based extraction strategy of §4.1, which is described in the spec
but absent from the source file (title/source/content-type headers of the
proxy's text rendering). -/
def specIsMetadata (l : String) : Bool :=
  startsWithStr "Title:" l || startsWithStr "URL Source:" l ||
    startsWithStr "Markdown Content:" l

/-- Modelled from the spec: the markdown image/link/GIF marker exclusion
of the filter-based strategy of §4.1. -/
def specIsMarkdown (l : String) : Bool :=
  startsWithStr "![" l || startsWithStr "[" l || startsWithStr "GIF" l

/-- Modelled from the spec: a line that is purely numeric once
thousands-separators and decimal points are stripped (an engagement-count
line such as `1,204`). -/
def specIsNumericStat (s : String) : Bool :=
  let r := ((pyStrip s).data.filter (fun c => !(c = ',' || c = '.')))
  !r.isEmpty && r.all Char.isDigit

/-- Modelled from the spec: the filter-based extraction strategy of §4.1,
which the spec attributes to the second variant: accept every non-empty
line, in order and up to the cap, unless excluded as metadata, markdown
marker, or pure numeric stat. -/
def specFilterExtract (body : String) (cap : ℕ) : List String :=
  (((splitLines body).map pyStrip).filter
    (fun l => !(l = "") && !(specIsMetadata l || specIsMarkdown l ||
      specIsNumericStat l))).take cap

/-- Left-lean keyword set `LEFT_KEYWORDS` (source line 83). -/
def LEFT_KEYWORDS : List String := ["peronismo", "kirchnerismo", "izquierda"]

/-- Right-lean keyword set `RIGHT_KEYWORDS` (source line 84). -/
def RIGHT_KEYWORDS : List String := ["macri", "milei", "derecha", "liberal"]

/-- Test `any(k in text_lower for k in LEFT_KEYWORDS)` of source line 270,
with `text_lower = t.lower()`. -/
def inLeft (t : String) : Bool :=
  LEFT_KEYWORDS.any (fun k => isSubstrChars k.data (lowerStr t).data)

/-- Test `any(k in text_lower for k in RIGHT_KEYWORDS)` of source line 271. -/
def inRight (t : String) : Bool :=
  RIGHT_KEYWORDS.any (fun k => isSubstrChars k.data (lowerStr t).data)

/-- Classification loop of `analyze_trend` (source lines 264-294, keyword
variant): per message, append its score to the left bucket when a left
keyword occurs, to the right bucket when a right keyword occurs, and to
both buckets when neither occurs.  Written as a structural recursion that
emits each message's contributions in loop order. -/
def leanBuckets (score : String → ℚ) : List String → List ℚ × List ℚ
  | [] => ([], [])
  | t :: rest =>
    let s := score t
    let inL := inLeft t
    let inR := inRight t
    let tail := leanBuckets score rest
    ((if inL then [s] else []) ++ (if !inL && !inR then [s] else []) ++ tail.1,
     (if inR then [s] else []) ++ (if !inL && !inR then [s] else []) ++ tail.2)

/-- Guarded mean `average` (source lines 296-297):
`sum(lst) / len(lst) if lst else 0.0`. -/
def average (l : List ℚ) : ℚ := if l = [] then 0 else l.sum / l.length

/-- Round-half-to-even to an integer, the tie-breaking rule of Python's
builtin `round`. -/
def roundHalfEven (q : ℚ) : ℤ :=
  let f := ⌊q⌋
  if q - f < 1/2 then f
  else if 1/2 < q - f then f + 1
  else if f % 2 = 0 then f else f + 1

/-- Python `round(x, 3)` modelled on `ℚ`. -/
def round3 (q : ℚ) : ℚ := (roundHalfEven (q * 1000) : ℚ) / 1000

/-- Result record of `analyze_trend` (source lines 256-262 and 300-311). -/
structure TrendResult where
  topic : String
  description : String
  sentiment_left : ℚ
  sentiment_right : ℚ
deriving DecidableEq

/-- Orchestration `analyze_trend` (source lines 254-311, keyword/summary
variant): the tweet list is the result of the external fetch; with no
tweets the sentinel record is returned at once, otherwise the messages
are bucketed by lean, averaged, rounded to 3 decimals, and summarized.
The stopword corpus `sw` is external NLTK data. -/
def analyze_trend (sw : List String) (topic : String)
    (tweets : List String) : TrendResult :=
  match tweets with
  | [] => ⟨topic, "No data available", 0, 0⟩
  | _ :: _ =>
    let buckets := leanBuckets sentiment_score tweets
    ⟨topic, summarize_tweets sw tweets 10,
     round3 (average buckets.1), round3 (average buckets.2)⟩

/-- Fifteen distinct demo messages with pairwise distinct summarizer
scores (message `i` repeats its own word `i` times, so it scores `i²`
against the global frequency mapping). -/
def demo15 : List String :=
  ["w1",
   "w2 w2",
   "w3 w3 w3",
   "w4 w4 w4 w4",
   "w5 w5 w5 w5 w5",
   "w6 w6 w6 w6 w6 w6",
   "w7 w7 w7 w7 w7 w7 w7",
   "w8 w8 w8 w8 w8 w8 w8 w8",
   "w9 w9 w9 w9 w9 w9 w9 w9 w9",
   "w10 w10 w10 w10 w10 w10 w10 w10 w10 w10",
   "w11 w11 w11 w11 w11 w11 w11 w11 w11 w11 w11",
   "w12 w12 w12 w12 w12 w12 w12 w12 w12 w12 w12 w12",
   "w13 w13 w13 w13 w13 w13 w13 w13 w13 w13 w13 w13 w13",
   "w14 w14 w14 w14 w14 w14 w14 w14 w14 w14 w14 w14 w14 w14",
   "w15 w15 w15 w15 w15 w15 w15 w15 w15 w15 w15 w15 w15 w15 w15"]

/-- The ten highest-scoring demo messages, in descending score order. -/
def demoTop10 : List String :=
  ["w15 w15 w15 w15 w15 w15 w15 w15 w15 w15 w15 w15 w15 w15 w15",
   "w14 w14 w14 w14 w14 w14 w14 w14 w14 w14 w14 w14 w14 w14",
   "w13 w13 w13 w13 w13 w13 w13 w13 w13 w13 w13 w13 w13",
   "w12 w12 w12 w12 w12 w12 w12 w12 w12 w12 w12 w12",
   "w11 w11 w11 w11 w11 w11 w11 w11 w11 w11 w11",
   "w10 w10 w10 w10 w10 w10 w10 w10 w10 w10",
   "w9 w9 w9 w9 w9 w9 w9 w9 w9",
   "w8 w8 w8 w8 w8 w8 w8 w8",
   "w7 w7 w7 w7 w7 w7 w7",
   "w6 w6 w6 w6 w6 w6"]

/-! Helper lemmas shared by the claim theorems. -/

lemma isPrefixCharsB_iff (n h : List Char) : isPrefixCharsB n h = true ↔ n <+: h := by
  induction n generalizing h with
  | nil => simp [isPrefixCharsB]
  | cons a as ih =>
    cases h with
    | nil => simp [isPrefixCharsB]
    | cons b bs =>
      simp [isPrefixCharsB, List.cons_prefix_cons, ih bs]

lemma isSubstrChars_iff (n h : List Char) : isSubstrChars n h = true ↔ n <:+: h := by
  induction h with
  | nil =>
    simp [isSubstrChars, isPrefixCharsB_iff, List.infix_nil, List.prefix_nil]
  | cons b bs ih =>
    rw [List.infix_cons_iff]
    simp [isSubstrChars, isPrefixCharsB_iff, ih]

lemma dropWhile_append_of_forall {α : Type} (p : α → Bool) (xs ys : List α)
    (h : ∀ x ∈ xs, p x = true) : (xs ++ ys).dropWhile p = ys.dropWhile p := by
  induction xs with
  | nil => rfl
  | cons a as ih =>
    have ha := h a (by simp)
    simp only [List.cons_append, List.dropWhile_cons, ha, if_pos]
    exact ih (fun x hx => h x (by simp [hx]))

/-- C2: if message extraction returned no messages, `analyze_trend` emits
the sentinel record with description `"No data available"` and both
sentiments `0.0`; the definition returns this record before any scoring
or summarization is computed. -/
theorem analyze_trend_empty_sentinel (sw : List String) (topic : String) :
    analyze_trend sw topic [] = ⟨topic, "No data available", 0, 0⟩ := rfl

/-- C9: the translation-backed scorer scores the original text whenever
translation fails, and passes the external polarity score of the
translated text through unmodified whenever translation succeeds; being a
total function, it propagates no error to its caller. -/
theorem sentiment_translation_fallback (trans : String → Except String String)
    (polarity : String → ℚ) (text : String) :
    (∀ e, trans text = Except.error e →
      sentiment_score_nltk trans polarity text = polarity text) ∧
    (∀ t, trans text = Except.ok t →
      sentiment_score_nltk trans polarity text = polarity t) := by
  constructor <;> · intro x h; simp [sentiment_score_nltk, h]

theorem sentiment_translation_fallback_witness :
    sentiment_score_nltk (fun _ => Except.error "timeout") (fun _ => 1/2) "hola" = 1/2 ∧
    sentiment_score_nltk (fun _ => Except.ok "hello")
        (fun s => if s = "hello" then 1 else 0) "hola"
      = (if ("hello" : String) = "hello" then (1 : ℚ) else 0) :=
  ⟨(sentiment_translation_fallback _ _ _).1 "timeout" rfl,
   (sentiment_translation_fallback _ _ _).2 "hello" rfl⟩

/-- C3: the plain-lexicon score always lies in `[-1, 1]`; it is exactly 0
when no token hits either lexicon, and otherwise equals
`(pos - neg) / (pos + neg)` for the distinct-token match counts. -/
theorem sentiment_score_bounds (text : String) :
    (-1 ≤ sentiment_score text ∧ sentiment_score text ≤ 1) ∧
    (posCount text = 0 ∧ negCount text = 0 → sentiment_score text = 0) ∧
    (posCount text + negCount text ≠ 0 →
      sentiment_score text
        = ((posCount text : ℚ) - negCount text)
            / ((posCount text : ℚ) + negCount text)) := by
  have hdef : sentiment_score text
      = if posCount text + negCount text = 0 then 0
        else ((posCount text : ℚ) - negCount text)
              / ((posCount text : ℚ) + negCount text) := rfl
  by_cases h : posCount text + negCount text = 0
  · rw [hdef, if_pos h]
    exact ⟨⟨by norm_num, by norm_num⟩, fun _ => rfl, fun hc => absurd h hc⟩
  · rw [hdef, if_neg h]
    have hq : (0 : ℚ) < (posCount text : ℚ) + negCount text := by
      have h2 : 0 < posCount text + negCount text := Nat.pos_of_ne_zero h
      exact_mod_cast h2
    have h0p : (0 : ℚ) ≤ (posCount text : ℚ) := Nat.cast_nonneg _
    have h0n : (0 : ℚ) ≤ (negCount text : ℚ) := Nat.cast_nonneg _
    refine ⟨⟨?_, ?_⟩, ?_, fun _ => rfl⟩
    · rw [le_div_iff₀ hq]; linarith
    · rw [div_le_one hq]; linarith
    · rintro ⟨h1, h2⟩
      exact absurd (by rw [h1, h2]) h

theorem sentiment_score_bounds_witness :
    posCount "good day" + negCount "good day" ≠ 0 ∧
    sentiment_score "good day"
      = ((posCount "good day" : ℚ) - negCount "good day")
          / ((posCount "good day" : ℚ) + negCount "good day") :=
  ⟨by decide, (sentiment_score_bounds "good day").2.2 (by decide)⟩

/-- C10: the plain-lexicon score is a function of the set of distinct
normalized tokens only — repeated occurrences of a lexicon word count at
most once — and in particular `"good good bad"` scores exactly 0. -/
theorem sentiment_score_set_semantics :
    (∀ s t : String, (sentiRawToks s).toFinset = (sentiRawToks t).toFinset →
      sentiment_score s = sentiment_score t) ∧
    sentiment_score "good good bad" = 0 := by
  constructor
  · intro s t h
    have hperm := List.toFinset_eq_iff_perm_dedup.mp h
    have hp : posCount s = posCount t := by
      unfold posCount sentiWords
      exact List.Perm.countP_eq _ hperm
    have hn : negCount s = negCount t := by
      unfold negCount sentiWords
      exact List.Perm.countP_eq _ hperm
    simp only [sentiment_score, hp, hn]
  · have h1 : posCount "good good bad" = 1 := by decide
    have h2 : negCount "good good bad" = 1 := by decide
    simp only [sentiment_score, h1, h2]
    norm_num

theorem sentiment_score_set_semantics_witness :
    (sentiRawToks "good good bad").toFinset = (sentiRawToks "bad good").toFinset ∧
    sentiment_score "good good bad" = sentiment_score "bad good" :=
  ⟨by decide, sentiment_score_set_semantics.1 _ _ (by decide)⟩

/-- C7: each reported lean aggregate is the arithmetic mean of that
bucket's scores rounded to 3 decimal places; the mean of an empty list is
0 by the guard, and a nonempty list's mean is its sum over its length (on
`ℚ`, so no NaN can arise or propagate). -/
theorem average_round_contract :
    average ([] : List ℚ) = 0 ∧
    (∀ l : List ℚ, l ≠ [] → average l = l.sum / l.length) ∧
    (∀ (sw : List String) (topic t : String) (ts : List String),
      (analyze_trend sw topic (t :: ts)).sentiment_left
          = round3 (average (leanBuckets sentiment_score (t :: ts)).1) ∧
      (analyze_trend sw topic (t :: ts)).sentiment_right
          = round3 (average (leanBuckets sentiment_score (t :: ts)).2)) := by
  refine ⟨rfl, ?_, fun sw topic t ts => ⟨rfl, rfl⟩⟩
  intro l h
  simp [average, h]

theorem average_round_contract_witness :
    (([(1 : ℚ)] : List ℚ) ≠ []) ∧
    average [(1 : ℚ)] = [(1 : ℚ)].sum / ([(1 : ℚ)] : List ℚ).length :=
  ⟨by simp, average_round_contract.2.1 _ (by simp)⟩

/-- C1: lean classification is by case-insensitive substring containment
of the keyword sets; a left-only message contributes its score to the
left bucket only, a right-only message to the right bucket only, and a
message matching neither set to both buckets; buckets decompose
message-by-message over the list. -/
theorem lean_classifier_buckets (score : String → ℚ) (t : String)
    (xs ys : List String) :
    (inLeft t = true → inRight t = false →
      leanBuckets score [t] = ([score t], [])) ∧
    (inRight t = true → inLeft t = false →
      leanBuckets score [t] = ([], [score t])) ∧
    (inLeft t = false → inRight t = false →
      leanBuckets score [t] = ([score t], [score t])) ∧
    (leanBuckets score (xs ++ ys)
      = ((leanBuckets score xs).1 ++ (leanBuckets score ys).1,
         (leanBuckets score xs).2 ++ (leanBuckets score ys).2)) ∧
    (∀ k hay : List Char, isSubstrChars k hay = true ↔ k <:+: hay) := by
  refine ⟨?_, ?_, ?_, ?_, isSubstrChars_iff⟩
  · intro h1 h2; simp [leanBuckets, h1, h2]
  · intro h1 h2; simp [leanBuckets, h1, h2]
  · intro h1 h2; simp [leanBuckets, h1, h2]
  · induction xs with
    | nil => simp [leanBuckets]
    | cons a as ih => simp [leanBuckets, ih, List.append_assoc]

theorem lean_classifier_buckets_witness :
    (inLeft "gran peronismo" = true ∧ inRight "gran peronismo" = false ∧
      leanBuckets sentiment_score ["gran peronismo"]
        = ([sentiment_score "gran peronismo"], [])) ∧
    (inRight "habla milei" = true ∧ inLeft "habla milei" = false ∧
      leanBuckets sentiment_score ["habla milei"]
        = ([], [sentiment_score "habla milei"])) ∧
    (inLeft "hola mundo" = false ∧ inRight "hola mundo" = false ∧
      leanBuckets sentiment_score ["hola mundo"]
        = ([sentiment_score "hola mundo"], [sentiment_score "hola mundo"])) :=
  ⟨⟨by decide, by decide,
    (lean_classifier_buckets sentiment_score _ [] []).1 (by decide) (by decide)⟩,
   ⟨by decide, by decide,
    (lean_classifier_buckets sentiment_score _ [] []).2.1 (by decide) (by decide)⟩,
   ⟨by decide, by decide,
    (lean_classifier_buckets sentiment_score _ [] []).2.2.1 (by decide) (by decide)⟩⟩

/-- C8: stopword words are dropped from the summarizer's token stream —
hence from both the global frequency mapping and every per-message sum —
while surviving words contribute their punctuation-stripped lower-cased
token once per occurrence, and per-message sums are additive over
occurrences. -/
theorem summarizer_stopword_contract (sw : List String) (w tok : String)
    (ws1 ws2 : List String) (freq : String → ℕ) (l1 l2 : List String) :
    (lowerStr w ∈ sw →
      tokensOfWords sw (ws1 ++ w :: ws2) = tokensOfWords sw (ws1 ++ ws2)) ∧
    (lowerStr w ∉ sw →
      tokensOfWords sw (ws1 ++ w :: ws2)
        = tokensOfWords sw ws1 ++ sumTok w :: tokensOfWords sw ws2) ∧
    (msgScoreTokens freq (l1 ++ tok :: l2)
        = msgScoreTokens freq l1 + freq tok + msgScoreTokens freq l2) ∧
    (∀ t : String, sumTokens sw t = tokensOfWords sw (pySplit t)) ∧
    (∀ (tweets : List String) (x : String),
      freqOf sw tweets x = ((tweets.map (sumTokens sw)).flatten).count x) := by
  refine ⟨?_, ?_, ?_, fun _ => rfl, fun _ _ => rfl⟩
  · intro h
    simp [tokensOfWords, List.filter_append, List.filter_cons, h]
  · intro h
    simp [tokensOfWords, List.filter_append, List.filter_cons, h]
  · simp only [msgScoreTokens, List.map_append, List.map_cons,
      List.sum_append, List.sum_cons]
    omega

theorem summarizer_stopword_contract_witness :
    (lowerStr "De" ∈ ["de"]) ∧
    tokensOfWords ["de"] (["hola"] ++ "De" :: ["mundo"])
      = tokensOfWords ["de"] (["hola"] ++ ["mundo"]) ∧
    (lowerStr "Gran!" ∉ ["de"]) ∧
    tokensOfWords ["de"] (["hola"] ++ "Gran!" :: ["mundo"])
      = tokensOfWords ["de"] ["hola"] ++ sumTok "Gran!" :: tokensOfWords ["de"] ["mundo"] :=
  ⟨by decide,
   (summarizer_stopword_contract ["de"] "De" "x" ["hola"] ["mundo"]
     (fun _ => 0) [] []).1 (by decide),
   by decide,
   (summarizer_stopword_contract ["de"] "Gran!" "x" ["hola"] ["mundo"]
     (fun _ => 0) [] []).2.1 (by decide)⟩

lemma anchorGo_length_le (fuel : ℕ) : ∀ (lines : List String) (cnt : ℕ),
    cnt ≤ 30 → (anchorGo fuel lines cnt).length + cnt ≤ 30 := by
  induction fuel with
  | zero =>
    intro lines cnt h
    simpa [anchorGo] using h
  | succ f ih =>
    intro lines cnt h
    cases lines with
    | nil => simpa [anchorGo] using h
    | cons line rest =>
      by_cases h30 : 30 ≤ cnt
      · simp only [anchorGo, if_pos h30]
        simpa using h
      · simp only [anchorGo, if_neg h30]
        by_cases hA : isAnchor line = true
        · rw [if_pos hA]
          cases hd : rest.dropWhile isBlankOrNum with
          | nil => exact ih rest cnt h
          | cons next rest2 =>
            by_cases hv : pyStrip next ≠ "" ∧ startsWithStr "![" (pyStrip next) = false ∧
                startsWithStr "[]" (pyStrip next) = false
            · simp only [if_pos hv, List.length_cons]
              have := ih rest2 (cnt + 1) (by omega)
              omega
            · simp only [if_neg hv]
              exact ih rest2 cnt h
        · rw [if_neg hA]
          exact ih rest cnt h

/-- C5: anchor-based extraction: empty input yields no messages; the
output never exceeds the cap of 30; and an anchor line followed by
blank-or-numeric lines and then a valid text line contributes exactly
that line's stripped text, with scanning resuming after the consumed
line; in particular the anchor/blank/blank/text instance yields exactly
one message. -/
theorem anchor_extraction_contract :
    fetch_tweets_from_nitter "" = [] ∧
    (∀ body : String, (fetch_tweets_from_nitter body).length ≤ 30) ∧
    (∀ (fuel cnt : ℕ) (anchor t : String) (blanks rest : List String),
      cnt < 30 → isAnchor anchor = true →
      (∀ b ∈ blanks, isBlankOrNum b = true) →
      isBlankOrNum t = false →
      pyStrip t ≠ "" →
      startsWithStr "![" (pyStrip t) = false →
      startsWithStr "[]" (pyStrip t) = false →
      anchorGo (fuel + 1) (anchor :: (blanks ++ t :: rest)) cnt
        = pyStrip t :: anchorGo fuel rest (cnt + 1)) ∧
    fetch_tweets_from_nitter "x UTC\")\n\n\nhello world" = ["hello world"] := by
  refine ⟨rfl, ?_, ?_, by decide⟩
  · intro body
    have h := anchorGo_length_le (splitLines body).length (splitLines body) 0 (by omega)
    simp only [fetch_tweets_from_nitter]
    omega
  · intro fuel cnt anchor t blanks rest hcnt hanchor hblanks ht hne hbang hbrack
    have hdrop : (blanks ++ t :: rest).dropWhile isBlankOrNum = t :: rest := by
      rw [dropWhile_append_of_forall _ _ _ hblanks]
      simp [List.dropWhile_cons, ht]
    simp only [anchorGo, if_neg (show ¬ 30 ≤ cnt by omega),
      if_pos hanchor, hdrop]
    rw [if_pos ⟨hne, hbang, hbrack⟩]

theorem anchor_extraction_contract_witness :
    (0 : ℕ) < 30 ∧ isAnchor "x UTC\")" = true ∧ isBlankOrNum "hello" = false ∧
    anchorGo 1 ("x UTC\")" :: (["", ""] ++ "hello" :: [])) 0
      = pyStrip "hello" :: anchorGo 0 [] 1 :=
  ⟨by decide, by decide, by decide,
   anchor_extraction_contract.2.2.1 0 0 "x UTC\")" "hello" ["", ""] []
     (by decide) (by decide) (by decide) (by decide) (by decide) (by decide)
     (by decide)⟩

lemma tweetFold_no_open (events : List HtmlEvent) (acc : List String)
    (h : ∀ tag attrs, HtmlEvent.tagOpen tag attrs ∈ events →
      ¬(tag = "p" ∧ attrClass attrs = "tweet-content media-body")) :
    events.foldl tweetStep (false, acc) = (false, acc) := by
  induction events generalizing acc with
  | nil => rfl
  | cons e es ih =>
    have hstep : tweetStep (false, acc) e = (false, acc) := by
      cases e with
      | tagOpen tag attrs =>
        have hne := h tag attrs (by simp)
        simp [tweetStep, hne]
      | tagClose tag => simp [tweetStep]
      | text d => simp [tweetStep]
    rw [List.foldl_cons, hstep]
    exact ih acc (fun tag attrs hm => h tag attrs (by simp [hm]))

/-- C6 counterexample: the second extraction strategy is not filter-based
line filtering.  On the plain one-line input `hello` — a non-empty line
matching no exclusion predicate, which the stdlib tokenizer delivers as a
single character-data event — the second variant extracts nothing, while
the filter-based strategy described in the spec would accept the line. -/
theorem tweet_extract_not_filter_based :
    tweetTagExtract [HtmlEvent.text "hello"] = [] ∧
    specFilterExtract "hello" 10 = ["hello"] ∧
    tweetTagExtract [HtmlEvent.text "hello"] ≠ specFilterExtract "hello" 10 :=
  ⟨by decide, by decide, by decide⟩

/-- C6 (amended): the second extraction strategy is structural tag
parsing: it collects the stripped non-empty character data occurring
while inside a `p` element opened with class `tweet-content media-body`,
in document order, capped at the first 10; a stream with no such start
tag yields nothing, whatever its character data. -/
theorem tweet_extract_tag_parsing :
    (∀ events : List HtmlEvent, (tweetTagExtract events).length ≤ 10) ∧
    (∀ events : List HtmlEvent,
      (∀ tag attrs, HtmlEvent.tagOpen tag attrs ∈ events →
        ¬(tag = "p" ∧ attrClass attrs = "tweet-content media-body")) →
      tweetTagExtract events = []) ∧
    tweetTagExtract
        [HtmlEvent.tagOpen "p" [("class", "tweet-content media-body")],
         HtmlEvent.text " hi ", HtmlEvent.text "1234", HtmlEvent.tagClose "p",
         HtmlEvent.text "out", HtmlEvent.tagOpen "p" [("class", "other")],
         HtmlEvent.text "x"] = ["hi", "1234"] := by
  refine ⟨?_, ?_, by decide⟩
  · intro events
    exact List.length_take_le 10 _
  · intro events h
    unfold tweetTagExtract
    rw [tweetFold_no_open events [] h]
    rfl

theorem tweet_extract_tag_parsing_witness :
    tweetTagExtract [HtmlEvent.text "zz"] = [] :=
  tweet_extract_tag_parsing.2.1 [HtmlEvent.text "zz"]
    (by intro tag attrs hm; simp at hm)

lemma lexLe_total (a b : List Char) : lexLe a b = true ∨ lexLe b a = true := by
  induction a generalizing b with
  | nil => exact Or.inl rfl
  | cons x xs ih =>
    cases b with
    | nil => exact Or.inr rfl
    | cons y ys =>
      rcases lt_trichotomy x y with h | h | h
      · exact Or.inl (by simp [lexLe, h])
      · subst h
        rcases ih ys with h2 | h2
        · exact Or.inl (by simp [lexLe, h2])
        · exact Or.inr (by simp [lexLe, h2])
      · exact Or.inr (by simp [lexLe, h])

lemma lexLe_trans : ∀ {a b c : List Char},
    lexLe a b = true → lexLe b c = true → lexLe a c = true
  | [], _, _, _, _ => rfl
  | _ :: _, [], _, h1, _ => by simp [lexLe] at h1
  | _ :: _, _ :: _, [], _, h2 => by simp [lexLe] at h2
  | x :: xs, y :: ys, z :: zs, h1, h2 => by
    by_cases hxy : x < y
    · by_cases hyz : y < z
      · simp [lexLe, lt_trans hxy hyz]
      · by_cases hyz2 : y = z
        · subst hyz2; simp [lexLe, hxy]
        · simp [lexLe, hyz, hyz2] at h2
    · by_cases hxy2 : x = y
      · subst hxy2
        have h1x : lexLe xs ys = true := by simpa [lexLe, hxy] using h1
        by_cases hyz : x < z
        · simp [lexLe, hyz]
        · by_cases hyz2 : x = z
          · subst hyz2
            have h2x : lexLe ys zs = true := by simpa [lexLe, hyz] using h2
            simp [lexLe, hyz, lexLe_trans h1x h2x]
          · simp [lexLe, hyz, hyz2] at h2
      · simp [lexLe, hxy, hxy2] at h1

instance : IsTotal (ℕ × String) pairGE :=
  ⟨by
    intro a b
    rcases lt_trichotomy a.1 b.1 with h | h | h
    · exact Or.inr (Or.inl h)
    · rcases lexLe_total a.2.data b.2.data with h2 | h2
      · exact Or.inr (Or.inr ⟨h.symm, h2⟩)
      · exact Or.inl (Or.inr ⟨h, h2⟩)
    · exact Or.inl (Or.inl h)⟩

instance : IsTrans (ℕ × String) pairGE :=
  ⟨by
    intro a b c hab hbc
    rcases hab with h1 | ⟨h1, h1l⟩ <;> rcases hbc with h2 | ⟨h2, h2l⟩
    · exact Or.inl (by omega)
    · exact Or.inl (by omega)
    · exact Or.inl (by omega)
    · exact Or.inr ⟨by omega, lexLe_trans h2l h1l⟩⟩

/-- C4: the summarizer's output is the first `n` texts of a sorted
rearrangement of the `(score, text)` pairs — descending score with
descending-lexicographic tie-break on the text — joined by newlines; on
the 15 distinct demo messages with `n = 10` the output consists of
exactly those 10 lines, in descending-score order. -/
theorem summarize_sort_contract :
    (∀ (sw tweets : List String) (n : ℕ), ∃ L : List (ℕ × String),
      (tweets.map (fun t => (msgScore sw tweets t, t))).Perm L ∧
      L.Sorted pairGE ∧
      summarize_tweets sw tweets n = joinSep "\n" ((L.take n).map Prod.snd)) ∧
    splitLines (summarize_tweets [] demo15 10) = demoTop10 ∧
    demoTop10.length = 10 := by
  refine ⟨?_, by decide, by decide⟩
  intro sw tweets n
  exact ⟨List.insertionSort pairGE (tweets.map fun t => (msgScore sw tweets t, t)),
    (List.perm_insertionSort pairGE _).symm,
    List.sorted_insertionSort pairGE _,
    rfl⟩
